import Mathlib

/-!
# Verification of the skyfire-solutions-buildship-demo core

Shallow embedding of the dynamic tool-discovery orchestration loop
(`src/app/actions.tsx`), the OpenAPI service-description compiler
(`src/app/toolConverterUtils.ts`), and the daily usage counter
(`src/lib/redis.ts`), together with theorems settling the frozen claims
about them.

JavaScript strings are modelled as Lean `String` over their character
sequences (the sources only manipulate ASCII text, where JS UTF-16 code
units and Lean characters agree).
-/

namespace Skyfire

/-! ## JS string primitives -/

/-- JS `String.prototype.toLowerCase` restricted to ASCII, which is the only
alphabet the sources feed it. -/
def jsToLower (s : String) : String := ⟨s.data.map Char.toLower⟩

/-- JS `String.prototype.toUpperCase` restricted to ASCII. -/
def jsToUpper (s : String) : String := ⟨s.data.map Char.toUpper⟩

/-- JS `substring(0, n)` (the sources only use the `(0, n)` form). -/
def jsSubstring (n : Nat) (s : String) : String := ⟨s.data.take n⟩

/-- The whitespace class `\s` of the JS regexes in the sources (ASCII part). -/
def isWsChar (c : Char) : Bool :=
  c = ' ' || c = '\t' || c = '\n' || c = '\r' || c = '\x0b' || c = '\x0c'

/-- Characters admitted by the regex class `[a-z0-9]`. -/
def isLowerAlnum (c : Char) : Bool :=
  ('a' ≤ c && c ≤ 'z') || ('0' ≤ c && c ≤ '9')

/-- Characters admitted by the regex class `[a-z0-9_]`. -/
def isLowerAlnumU (c : Char) : Bool := isLowerAlnum c || c = '_'

/-- Helper for `replaceWsRuns`: the flag records whether the previous
character belonged to a whitespace run already replaced. -/
def replaceWsRunsAux (repl : Char) : Bool → List Char → List Char
  | _, [] => []
  | prevWs, c :: rest =>
    if isWsChar c then
      if prevWs then replaceWsRunsAux repl true rest
      else repl :: replaceWsRunsAux repl true rest
    else c :: replaceWsRunsAux repl false rest

/-- JS `replace(/\s+/g, repl)` with a one-character replacement: every maximal
run of whitespace becomes the single character `repl`. -/
def replaceWsRuns (repl : Char) (l : List Char) : List Char :=
  replaceWsRunsAux repl false l

/-- JS `split(/\s+/).join(' ')` equals replacing each maximal whitespace run
by one space (leading/trailing runs become a leading/trailing space). -/
def jsSplitWsJoinSpace (s : String) : String := ⟨replaceWsRuns ' ' s.data⟩

/-- JS `String.prototype.trim`. -/
def jsTrim (s : String) : String :=
  ⟨(s.data.dropWhile isWsChar).reverse.dropWhile isWsChar |>.reverse⟩

/-- JS `split(sep)` for a one-character separator (the only form the sources
use: `'_'`, `' '`, `'.'`), on the character list.  As in JS, the result is
never empty and empty pieces are kept. -/
def splitOnChar (sep : Char) : List Char → List (List Char)
  | [] => [[]]
  | c :: rest =>
    let r := splitOnChar sep rest
    if c = sep then [] :: r
    else
      match r with
      | [] => [[c]]
      | h :: t => (c :: h) :: t

/-- JS `split(sep)` on strings, one-character separator. -/
def jsSplit (sep : Char) (s : String) : List String :=
  (splitOnChar sep s.data).map String.mk

/-- JS `a.endsWith(b)`. -/
def jsEndsWith (s suffix : String) : Bool := suffix.data.isSuffixOf s.data

/-- Substring test, JS `String.prototype.includes`. -/
def strIncludes : List Char → List Char → Bool
  | l, sub =>
    if sub.isPrefixOf l then true
    else
      match l with
      | [] => false
      | _ :: t => strIncludes t sub

/-- JS `a.includes(b)` on strings. -/
def jsIncludes (s sub : String) : Bool := strIncludes s.data sub.data

/-- JS truthy lookup `obj[key]` followed by an `if (…)` test: a present but
empty string is falsy and behaves like an absent key. -/
def jsLookupTruthy (l : List (String × String)) (k : String) : Option String :=
  match l.lookup k with
  | some v => if v = "" then none else some v
  | none => none

/-- JS object property assignment `obj[k] = v` on a string-keyed object,
modelled as an insertion-ordered association list: assigning an existing key
overwrites it in place, a new key is appended.  (`Object.keys` /
`Object.entries` enumerate string keys in insertion order; no source object
uses integer-like keys.) -/
def objInsert (l : List (String × α)) (k : String) (v : α) : List (String × α) :=
  if l.any (fun p => p.1 = k) then
    l.map (fun p => if p.1 = k then (k, v) else p)
  else
    l ++ [(k, v)]

/-! ## Service-Description Compiler (`toolConverterUtils.ts`)

Data model of the OpenAPI document pieces the compiler reads. -/

/-- `parameter.schema` as read by `convertParameterToJsonSchema`: only the
attributes the converter copies.  A `$ref` schema is modelled as the record
with every field absent (the source collapses it to `{}`). -/
structure ParamSchemaSrc where
  type : Option String := none
  format : Option String := none
  dfault : Option String := none
  minimum : Option Int := none
  maximum : Option Int := none
  enum : Option (List String) := none
deriving Repr, DecidableEq

/-- An entry of an OpenAPI `parameters` array. -/
structure Param where
  name : String
  location : String
  required : Bool := false
  description : Option String := none
  schema : Option ParamSchemaSrc := none
deriving Repr, DecidableEq

/-- A property of a request-body object schema (`title`, `description`,
`type` and the optional attributes the converter copies). -/
structure BodyPropSrc where
  type : Option String := none
  title : Option String := none
  description : Option String := none
  format : Option String := none
  dfault : Option String := none
  minimum : Option Int := none
  maximum : Option Int := none
  enum : Option (List String) := none
deriving Repr, DecidableEq

/-- The `content['application/json'].schema` of a request body.  A missing
`application/json` entry, a missing schema or a `$ref` schema is modelled as
`none` at the use sites (the source collapses those to `{}`/`undefined`,
which fail its `schemaObj.type === 'object'` test exactly when
`type ≠ some "object"` here). -/
structure BodySchemaSrc where
  type : Option String := none
  properties : List (String × BodyPropSrc) := []
  required : List String := []
deriving Repr, DecidableEq

/-- An OpenAPI operation, restricted to the fields the compiler reads. -/
structure Operation where
  summary : Option String := none
  operationId : Option String := none
  description : Option String := none
  parameters : List Param := []
  requestBody : Option BodySchemaSrc := none
deriving Repr, DecidableEq

/-- One path item: the five HTTP methods the compiler iterates plus
path-level parameters. -/
structure PathItem where
  getOp : Option Operation := none
  postOp : Option Operation := none
  putOp : Option Operation := none
  deleteOp : Option Operation := none
  patchOp : Option Operation := none
  parameters : List Param := []
deriving Repr, DecidableEq

/-- `pathItem[method]` for the method strings of the compiler's fixed list. -/
def PathItem.op (item : PathItem) (method : String) : Option Operation :=
  if method = "get" then item.getOp
  else if method = "post" then item.postOp
  else if method = "put" then item.putOp
  else if method = "delete" then item.deleteOp
  else if method = "patch" then item.patchOp
  else none

/-- An OpenAPI document, restricted to the fields the compiler reads. -/
structure OpenApiSpec where
  servers : List String := []
  paths : List (String × PathItem) := []
deriving Repr, DecidableEq

/-- The fixed method list of `generateTools` / `extractToolNames`. -/
def methodsList : List String := ["get", "post", "put", "delete", "patch"]

/-- The final path-derived fallback branch of `generateToolName` (lines
740-751). -/
def pathFallbackName (path method : String) : String :=
  -- path.replace(/[{}]/g, '').replace(/\//g, '_').replace(/-/g, '_')
  --     .replace(/^_+|_+$/g, '')
  let pathPart : String := ⟨path.data.filter
    (fun c => ¬ (c = '\x7b' || c = '\x7d'))⟩
  let pathPart : String := ⟨pathPart.data.map
    (fun c => if c = '/' || c = '-' then '_' else c)⟩
  let pathPart : String := ⟨(pathPart.data.dropWhile (· = '_')).reverse.dropWhile
    (· = '_') |>.reverse⟩
  let toolName := jsToLower method ++ "_" ++ pathPart
  -- toolName.split('_').filter(Boolean).join('_')
  let toolName := String.intercalate "_"
    ((jsSplit '_' toolName).filter (fun w => w ≠ ""))
  jsSubstring 60 toolName

/-- The derivation branches of `generateToolName` (lines 709-752), taken
when the override mapping has no (truthy) entry: summary, then operationId,
then path fallback. -/
def generateToolNameDerived (path method : String) (operation : Operation) : String :=
  let summary := operation.summary.getD ""
  if summary ≠ "" then
    -- summary.toLowerCase()
    let c1 := jsToLower summary
    -- .split(/\s+/).join(' ').trim()
    let c2 := jsTrim (jsSplitWsJoinSpace c1)
    -- .replace(/\s+/g, '_')
    let c3 : String := ⟨replaceWsRuns '_' c2.data⟩
    -- .replace(/[^a-z0-9_]/g, '')
    let c4 : String := ⟨c3.data.filter isLowerAlnumU⟩
    if ¬ c4.data.contains '_' then jsSubstring 60 (jsToLower method ++ "_" ++ c4)
    else jsSubstring 60 c4
  else
    match operation.operationId with
    | some operationId =>
      if operationId = "" then
        pathFallbackName path method
      else
        -- operationId.replace(/[\s-]/g, '_').toLowerCase()
        let cleanId := jsToLower ⟨operationId.data.map
          (fun c => if isWsChar c || c = '-' then '_' else c)⟩
        -- cleanId.replace(/[^a-z0-9_]/g, '')
        let finalId : String := ⟨cleanId.data.filter isLowerAlnumU⟩
        jsSubstring 60 (jsToLower method ++ "_" ++ finalId)
    | none => pathFallbackName path method

/-- `generateToolName` (`toolConverterUtils.ts` lines 702-753).  `toolNames`
is the externally supplied name-override mapping; a present, nonempty entry
for `"{method}_{path}"` is returned verbatim — unsanitized and untruncated. -/
def generateToolName (toolNames : List (String × String)) (path method : String)
    (operation : Operation) : String :=
  let toolKey := method ++ "_" ++ path
  match jsLookupTruthy toolNames toolKey with
  | some v => v
  | none => generateToolNameDerived path method operation

/-- A compiled JSON-Schema property, as assembled by the converter: the
`type` with its `'string'` fallback, the computed `description`, and the
optional attributes copied over when present in the source. -/
structure PropSchema where
  type : String
  description : String
  format : Option String := none
  dfault : Option String := none
  minimum : Option Int := none
  maximum : Option Int := none
  enum : Option (List String) := none
deriving Repr, DecidableEq

/-- `convertParameterToJsonSchema` (`toolConverterUtils.ts` lines 623-642). -/
def convertParameterToJsonSchema (parameter : Param) : PropSchema :=
  let schemaObj := parameter.schema.getD {}
  { type := schemaObj.type.getD "string"
    description := match parameter.description with
      | some d => if d = "" then "Parameter " ++ parameter.name else d
      | none => "Parameter " ++ parameter.name
    format := schemaObj.format
    dfault := schemaObj.dfault
    minimum := schemaObj.minimum
    maximum := schemaObj.maximum
    enum := schemaObj.enum }

/-- Conversion of one request-body property inside
`convertParametersToJsonSchema` (lines 943-959): `type` falls back to
`'string'`, the description is `title || description || "Property {name}"`
(JS `||`, so empty strings are skipped), and the optional attributes are
copied when present. -/
def convertBodyProp (propName : String) (propObj : BodyPropSrc) : PropSchema :=
  let title := propObj.title.getD ""
  let descr := propObj.description.getD ""
  { type := propObj.type.getD "string"
    description :=
      if title ≠ "" then title
      else if descr ≠ "" then descr
      else "Property " ++ propName
    format := propObj.format
    dfault := propObj.dfault
    minimum := propObj.minimum
    maximum := propObj.maximum
    enum := propObj.enum }

/-- The object schema returned by `convertParametersToJsonSchema` (the
argument of the final `jsonSchema({...})` call). -/
structure JsonSchemaObj where
  type : String
  properties : List (String × PropSchema)
  required : List String
  additionalProperties : Bool
deriving Repr, DecidableEq

/-- The injected authentication-token property (lines 914-917). -/
def skyfireTokenProp : PropSchema :=
  { type := "string", description := "Skyfire KYA+PAY token for authentication" }

/-- The body of the `parameters.forEach` loop of
`convertParametersToJsonSchema` (lines 920-926): add the converted property
and record path/declared-required names. -/
def paramsAccumStep (st : List (String × PropSchema) × List String)
    (param : Param) : List (String × PropSchema) × List String :=
  (objInsert st.1 param.name (convertParameterToJsonSchema param),
   if param.required || param.location = "path" then st.2 ++ [param.name]
   else st.2)

/-- The body of the request-body properties loop (lines 943-965): add the
converted body property and record schema-required names. -/
def bodyAccumStep (schemaRequired : List String)
    (st : List (String × PropSchema) × List String) (p : String × BodyPropSrc) :
    List (String × PropSchema) × List String :=
  (objInsert st.1 p.1 (convertBodyProp p.1 p.2),
   if schemaRequired.contains p.1 then st.2 ++ [p.1] else st.2)

/-- `convertParametersToJsonSchema` (`toolConverterUtils.ts` lines 905-998).
State threaded through the two accumulation loops: the `properties` object
and the `required` array.  The final schema discards the accumulated
`required` list and requires every property (`finalRequired =
Object.keys(properties)`, line 990). -/
def convertParametersToJsonSchema (parameters : List Param)
    (requestBody : Option BodySchemaSrc) : JsonSchemaObj :=
  -- properties['skyfire_kya_pay_token'] = {...}
  let properties0 : List (String × PropSchema) :=
    objInsert [] "skyfire_kya_pay_token" skyfireTokenProp
  -- parameters.forEach(...): accumulate (properties, required)
  let st1 := parameters.foldl paramsAccumStep (properties0, [])
  -- request-body properties
  let st2 :=
    match requestBody with
    | none => st1
    | some schemaObj =>
      if schemaObj.type = some "object" then
        let schemaProperties := schemaObj.properties
        let schemaRequired := schemaObj.required
        let stb := schemaProperties.foldl (bodyAccumStep schemaRequired) st1
        -- Special handling for malformed required fields like ["string"]
        if schemaRequired = ["string"] then
          (stb.1,
           schemaProperties.foldl
             (fun (req : List String) (p : String × BodyPropSrc) =>
               if req.contains p.1 then req else req ++ [p.1])
             stb.2)
        else stb
      else st1
  -- `validRequired` (line 984) is only compared for a warning and discarded;
  -- the returned schema requires every property.
  { type := "object", properties := st2.1, required := st2.1.map Prod.fst
    additionalProperties := false }

/-- A compiled Tool Definition: its description and parameter schema.  The
executor is network-directed; its response-processing half is embedded
separately as `executeToolRequest`. -/
structure ToolDef where
  description : String
  parameters : JsonSchemaObj
deriving Repr, DecidableEq

/-- `generateTools` (`toolConverterUtils.ts` lines 1000-1044): one tool per
(path, method) pair with a defined operation, keyed by generated name in a
JS object (a later duplicate name overwrites the earlier tool in place). -/
def generateTools (toolNames : List (String × String)) (spec : OpenApiSpec) :
    List (String × ToolDef) :=
  spec.paths.foldl
    (fun tools (pathEntry : String × PathItem) =>
      let path := pathEntry.1
      let pathItem := pathEntry.2
      methodsList.foldl
        (fun tools method =>
          match pathItem.op method with
          | none => tools
          | some operation =>
            let toolName := generateToolName toolNames path method operation
            let parameters := pathItem.parameters ++ operation.parameters
            let requestBody := operation.requestBody
            let summary := operation.summary.getD ""
            let descr := operation.description.getD ""
            let description :=
              (if summary ≠ "" then summary
               else if descr ≠ "" then descr
               else jsToUpper method ++ " " ++ path)
              ++ " Requires skyfire_kya_pay_token parameter for authentication."
            let toolSchema := convertParametersToJsonSchema parameters requestBody
            objInsert tools toolName ⟨description, toolSchema⟩)
        tools)
    []

/-! ## Compiled-tool executor (`createExecuteFunction`, lines 755-903)

The executor builds an HTTP request and processes its outcome inside one
`try/catch`.  The request construction (URL substitution, query string,
headers, body serialization) is network-directed and not observed by any
property here; the embedded function covers the outcome-processing half:
everything from the `fetch` call to the returned content, including every
error path of the `catch`. -/

/-- The result of parsing a response body as JSON (`response.json()`).
`parseOk errorField rendered` carries the truthy string value of the body's
`error` key (`none` when absent or falsy) and the pretty serialization
`JSON.stringify(data, null, 2)` of the parsed value; `parseFail msg` models
a `response.json()` rejection with the thrown error message. -/
inductive JsonBodyParse
  | parseOk (errorField : Option String) (rendered : String)
  | parseFail (msg : String)
deriving Repr, DecidableEq

/-- An HTTP response as the executor observes it. -/
structure HttpResponse where
  status : Nat
  statusText : String
  /-- whether the `content-type` header includes `application/json` -/
  contentTypeJson : Bool
  /-- the body read as JSON -/
  jsonBody : JsonBodyParse
  /-- the body read as text (`response.text()`) -/
  textBody : String
deriving Repr, DecidableEq

/-- `Response.ok` of the Fetch standard: status in the inclusive range
200-299. -/
def HttpResponse.ok (r : HttpResponse) : Bool :=
  200 ≤ r.status && r.status < 300

/-- What the `fetch` call produced: a response, or a rejection (network /
transport failure) carrying the thrown error message. -/
inductive FetchAttempt
  | response (r : HttpResponse)
  | transportError (msg : String)
deriving Repr, DecidableEq

/-- One item of a tool outcome's `content` array. -/
structure ContentItem where
  type : String
  text : String
deriving Repr, DecidableEq

/-- A tool outcome: `{content: [...]}`, returned both on success and on
handled failure. -/
structure ToolOutcome where
  content : List ContentItem
deriving Repr, DecidableEq

/-- `JSON.stringify` applied to a plain string (the non-JSON response
branch): the string is quoted.  Escaping of special characters inside the
string is not modelled; no property inspects this text. -/
def renderJsonString (s : String) : String := "\"" ++ s ++ "\""

/-- The outcome-processing half of `createExecuteFunction` (lines 844-901):
given what `fetch` produced, the value the executor returns.  The source's
`throw` statements inside the `try` land in its own `catch`, which converts
them to a text outcome — the function is total and never propagates an
exception past the executor boundary. -/
def executeToolRequest (attempt : FetchAttempt) : ToolOutcome :=
  match attempt with
  | .transportError msg =>
    -- fetch rejected; caught: `Error: ${error.message}`
    ⟨[⟨"text", "Error: " ++ msg⟩]⟩
  | .response r =>
    if ¬ r.ok then
      -- read a JSON error body for a message, else the status text
      let errorMessage :=
        match r.jsonBody with
        | .parseOk (some e) _ => e
        | .parseOk none _ => r.statusText
        | .parseFail _ => r.statusText
      -- throw new Error(`HTTP error! status: ..., message: ...`); caught below
      ⟨[⟨"text", "Error: HTTP error! status: " ++ toString r.status
          ++ ", message: " ++ errorMessage⟩]⟩
    else
      if r.contentTypeJson then
        match r.jsonBody with
        | .parseOk _ rendered =>
          ⟨[⟨"text", rendered⟩]⟩
        | .parseFail msg =>
          -- response.json() rejected; caught
          ⟨[⟨"text", "Error: " ++ msg⟩]⟩
      else
        ⟨[⟨"text", renderJsonString r.textBody⟩]⟩

/-! ## Orchestration loop data model (`actions.tsx`, `lib/types.ts`) -/

/-- A conversation message (`CoreMessage` as used by the sources: role and
text content). -/
structure Message where
  role : String
  content : String
deriving Repr, DecidableEq

/-- A mounted MCP server entry (`{url, headers}`). -/
structure Server where
  url : String
  headers : List (String × String)
deriving Repr, DecidableEq

/-- An `openApiSpecs` entry (`{url, authHeader?}`). -/
structure SpecRef where
  url : String
  authHeader : Option String := none
deriving Repr, DecidableEq

/-- `AgentContext` (`lib/types.ts`).  In JS one context object is threaded
by reference through every recursive round and mutated in place; the
embedding passes the updated value explicitly. -/
structure AgentContext where
  available_mcp_servers : List Server
  dynamically_mounted_server : List Server
  openApiSpecs : List SpecRef
  conversation_history : List Message
deriving Repr, DecidableEq

/-- A model-requested tool call (`ToolCall` of `actions.tsx`; the `type` and
`toolCallId` fields are never read).  A missing argument key models JS
`undefined`; reading it is modelled at each use site. -/
structure AgentToolCall where
  toolName : String
  args : List (String × String)
deriving Repr, DecidableEq

/-- A tool result as `actions.tsx` reads it: `toolResult.result.content`.
The value models the inner `result` object. -/
structure AgentToolResult where
  content : List ContentItem
deriving Repr, DecidableEq

/-- One raw model step of a round (`StepResult` of the AI SDK, restricted to
the fields the formatter and detector read). -/
structure AIStep where
  text : String
  toolCalls : List AgentToolCall
  toolResults : List AgentToolResult
deriving Repr, DecidableEq

/-- The `result` field of a `FormattedStep`: `null` for a plain thinking
step, the raw tool result (possibly `undefined`, when `toolResults` is
shorter than `toolCalls`) for a tool step, or the synthetic JWT-decoding
payload. -/
inductive FormattedResult
  | nullResult
  | toolResult (r : Option AgentToolResult)
  | jwtResult (token : String) (header payload : String)
deriving Repr, DecidableEq

/-- A displayable trace unit (`FormattedStep` of `actions.tsx`). -/
structure FormattedStep where
  step : Nat
  text : String
  tool : String
  input : List (String × String)
  result : FormattedResult
deriving Repr, DecidableEq

/-- The canned step-description table `textConfig` (`actions.tsx` lines
72-89).  Two values contain a possessive contraction in the source; they are
reproduced with the contraction expanded (the proofs never inspect the
values, only which keys are present). -/
def textConfig : List (String × String) :=
  [("find-seller",
    "I will use the Skyfire mcp server resources resources/list to find the Buildship seller for the requested data & retrieve the OpenAPI server URL of the seller"),
   ("create-kya-token",
    "I will use the Skyfire create-kya-token tool to create a KYA token for myself"),
   ("create-payment-token",
    "I will use the Skyfire create-payment-token tool to create a PAY token for the service which is later used by receiver to claim payment"),
   ("create-kya-pay-token",
    "I will use the Skyfire create-kya-pay-token tool to create a KYA+PAY token for the service which is later used by receiver to claim payment"),
   ("execute_companyresearcher_tool",
    "I will use the Buildship Company Researcher tool to get structured company information."),
   ("execute_researchcompetitors_tool",
    "I will use the Buildship Research Competitors tool to generate a structured competitor analysis"),
   ("export-text-to-pdf",
    "I will export the provided text content to a PDF document with customizable formatting options."),
   ("connect-mcp-server-tool", "Installing MCP server"),
   ("convert-openapi-spec-to-agent-tool", "Converting OpenAPI spec to tools...")]

/-- `getStepDescription` (`actions.tsx` lines 276-285).  For `get-pricing`,
`text + toolCall.args["dataset_id"]` concatenates the string `"undefined"`
when the argument is missing, as JS does. -/
def getStepDescription (step : AIStep) (toolCall : Option AgentToolCall) : String :=
  match toolCall with
  | none => step.text
  | some tc =>
    let text := (jsLookupTruthy textConfig tc.toolName).getD step.text
    if tc.toolName = "get-pricing" then
      text ++ (tc.args.lookup "dataset_id").getD "undefined"
    else text

/-- Modelled from the spec: `isJWT` (imported from `@/lib/utils`, a file not
included in the sources) checks that a candidate token is a well-formed
signed token — three nonempty dot-separated segments, per the glossary of a
JWT-style bearer token. -/
def isJWT (token : String) : Bool :=
  match jsSplit '.' token with
  | [a, b, c] => a ≠ "" && b ≠ "" && c ≠ ""
  | _ => false

/-- `jwtDecode` of the `jwt-decode` package, abstracted: the decoded header
and payload are modelled by the first two dot-separated segments of the
token (their base64 JSON decoding is not observed by any property). -/
def jwtDecodeParts (token : String) : String × String :=
  match jsSplit '.' token with
  | a :: b :: _ => (a, b)
  | [a] => (a, "")
  | [] => ("", "")

/-- `getDecodedJWT` (`actions.tsx` lines 249-261), fused with the `try` of
its call site: reading `toolResult.result.content[0].text` from an
`undefined` tool result or an empty `content` array throws in JS and is
caught by the caller, modelled as `none`.  Otherwise the token is the last
space-separated word of the text, and the result states whether it is a
well-formed JWT. -/
def getDecodedJWT (toolResult : Option AgentToolResult) :
    Option (String × String × String × Bool) :=
  match toolResult with
  | none => none
  | some tr =>
    match tr.content.head? with
    | none => none
    | some c0 =>
      let tokenRes := c0.text
      let token := (jsSplit ' ' tokenRes).getLastD ""
      if isJWT token then
        let parts := jwtDecodeParts token
        some (token, parts.1, parts.2, true)
      else
        some (token, "", "", false)

/-- The token-issuing tool names whose results trigger JWT decoding
(`actions.tsx` lines 475-478). -/
def tokenIssuingTools : List String :=
  ["create-payment-token", "create-kya-token", "create-kya-pay-token",
   "create-account"]

/-- `pushFormattedSteps` (`actions.tsx` lines 263-274): the synthetic
token-decoding step appended after a successful decode. -/
def pushFormattedSteps (token : String) (header payload : String) : FormattedStep :=
  { step := 1
    text := "Decoding JWT token..."
    tool := "thinking"
    input := []
    result := .jwtResult token header payload }

/-- The steps emitted for the `i`-th tool call of a raw step: the main
formatted step, plus — for a token-issuing tool whose result decodes to a
valid JWT — the synthetic decoding step. -/
def formatToolCall (s : AIStep) (tc : AgentToolCall)
    (tr : Option AgentToolResult) : List FormattedStep :=
  let main : FormattedStep :=
    { step := 1
      text := getStepDescription s (some tc)
      tool := if tc.toolName ≠ "" then tc.toolName else "thinking"
      input := tc.args
      result := .toolResult tr }
  let extra : List FormattedStep :=
    if tokenIssuingTools.contains tc.toolName then
      match getDecodedJWT tr with
      | some (token, header, payload, true) => [pushFormattedSteps token header payload]
      | _ => []
    else []
  main :: extra

/-- The formatted steps emitted for one raw step (`formatOutput`, lines
443-508): with tool calls, one entry per call (indexing `toolResults`
positionally, `undefined` past its end); without, a single thinking
entry. -/
def formatOutputStep (s : AIStep) : List FormattedStep :=
  if s.toolCalls.length > 0 then
    ((List.range s.toolCalls.length).map
      (fun i =>
        match s.toolCalls.get? i with
        | some tc => formatToolCall s tc (s.toolResults.get? i)
        | none => [])).flatten
  else
    [{ step := 1
       text := getStepDescription s none
       tool := "thinking"
       input := []
       result := .nullResult }]

/-- `formatOutput` (`actions.tsx` lines 442-509): appends the formatted
steps of every raw step, in order, to the accumulator passed in. -/
def formatOutput (steps : List AIStep) (formattedSteps : List FormattedStep) :
    List FormattedStep :=
  formattedSteps ++ (steps.map formatOutputStep).flatten

/-! ## Bootstrap detector
(`checkAndUpdateAgentContextIfConnectionIsInitiated`, lines 511-572) -/

/-- The mutable state of the detector's scan: the three flags and the
context being mutated. -/
structure DetectState where
  newToolsFound : Bool
  mcpServerConnected : Bool
  openApiSpecsAdded : Bool
  ctx : AgentContext
deriving Repr, DecidableEq

/-- Processing of one tool call by the detector (lines 522-549).  A
`connect-mcp-server-tool` call replaces `dynamically_mounted_server` by the
singleton of its URL (assignment, lines 528); a
`convert-openapi-spec-to-agent-tool` call appends to `openApiSpecs`
(`push`, lines 542-544).  A missing URL argument (JS `undefined`) is
modelled as the empty string. -/
def processToolCall (st : DetectState) (tc : AgentToolCall) : DetectState :=
  let st :=
    if tc.toolName = "connect-mcp-server-tool" then
      let url := (tc.args.lookup "mcpServerUrl").getD ""
      { st with
        ctx := { st.ctx with dynamically_mounted_server := [⟨url, []⟩] }
        mcpServerConnected := true
        newToolsFound := true }
    else st
  if tc.toolName = "convert-openapi-spec-to-agent-tool" then
    let url := (tc.args.lookup "openApiSpecUrl").getD ""
    { st with
      ctx := { st.ctx with openApiSpecs := st.ctx.openApiSpecs ++ [⟨url, none⟩] }
      openApiSpecsAdded := true
      newToolsFound := true }
  else st

/-- The post-scan system message (lines 554-563), selected by which flags
are set. -/
def bootstrapSystemMessage (mcpServerConnected openApiSpecsAdded : Bool) : String :=
  if mcpServerConnected && openApiSpecsAdded then
    "You are now connected to the tools provided by the seller MCP server and OpenAPI specs as well, run tools as per input prompt to solve problems step by step. Remember never use connect-mcp-server-tool on a json url. When connect-mcp-server-tool tool is executed, stop the processing immediately."
  else if mcpServerConnected then
    "You are now connected to the tools provided by the seller MCP server as well, run tools as per input prompt to solve problems step by step. Remember never use connect-mcp-server-tool on a json url. When connect-mcp-server-tool tool is executed, stop the processing immediately."
  else if openApiSpecsAdded then
    "You are now connected to the tools provided by the OpenAPI spec as well, run tools as per input prompt to solve problems step by step. When connect-mcp-server-tool tool is executed, stop the processing immediately."
  else ""

/-- `checkAndUpdateAgentContextIfConnectionIsInitiated` (lines 511-572):
scans every tool call of every step, then — at most once per round —
appends a single synthetic system message.  Returns `newToolsFound`
together with the updated context. -/
def checkAndUpdateAgentContextIfConnectionIsInitiated (steps : List AIStep)
    (agentContext : AgentContext) : Bool × AgentContext :=
  let st := steps.foldl
    (fun (st : DetectState) step =>
      if step.toolCalls.length > 0 then step.toolCalls.foldl processToolCall st
      else st)
    ⟨false, false, false, agentContext⟩
  let st :=
    if st.mcpServerConnected || st.openApiSpecsAdded then
      { st with ctx := { st.ctx with conversation_history :=
          st.ctx.conversation_history ++
            [⟨"system", bootstrapSystemMessage st.mcpServerConnected st.openApiSpecsAdded⟩] } }
    else st
  (st.newToolsFound, st.ctx)

/-! ## Tool Registry Builder (`prepareAllTools`, lines 287-440)

The builder's OpenAPI branch fetches and compiles every `openApiSpecs`
entry (network), and its MCP branch opens one transport connection per
server that passes the filter below.  The connection attempts are the
observable modelled here; tool-set fetching over those connections is
network-directed. -/

/-- The MCP-server filter of `prepareAllTools` (lines 346-360): JSON-spec
URLs (ending in `.json`) are skipped with a warning; otherwise a server
passes when its URL ends in `/mcp` or `/sse`, or contains no `.json`
anywhere. -/
def mcpServerFilter (server : Server) : Bool :=
  let url := server.url
  let isJsonSpec := jsEndsWith url ".json"
  let isMcpServer := jsEndsWith url "/mcp" || jsEndsWith url "/sse" ||
    (!isJsonSpec && !(jsIncludes url ".json"))
  if isJsonSpec then false else isMcpServer

/-- The transport connections `prepareAllTools` attempts for a context, in
order: one `StreamableHTTPClientTransport` connection per filtered server of
`available_mcp_servers ++ dynamically_mounted_server` (lines 292-295 and
367-378). -/
def prepareAllToolsConnectionAttempts (agentContext : AgentContext) : List String :=
  ((agentContext.available_mcp_servers ++ agentContext.dynamically_mounted_server).filter
    mcpServerFilter).map Server.url

/-- One method of the summary extraction `prepareAllTools` performs on a
fetched spec (lines 312-328): when the operation exists and has a summary,
record key `"{method}_{path}"` with the summary lowercased and every
character outside `[a-z0-9]` replaced by `_`. -/
def extractToolNamesMethodStep (pathEntry : String × PathItem)
    (toolNames : List (String × String)) (method : String) :
    List (String × String) :=
  match pathEntry.2.op method with
  | none => toolNames
  | some operation =>
    match operation.summary with
    | none => toolNames
    | some summary =>
      let toolKey := method ++ "_" ++ pathEntry.1
      let value : String :=
        ⟨(jsToLower summary).data.map
          (fun c => if isLowerAlnum c then c else '_')⟩
      objInsert toolNames toolKey value

/-- The per-operation summary extraction `prepareAllTools` performs on a
fetched spec (lines 311-329) to build the name-override mapping passed to
the compiler. -/
def extractToolNamesFromSpec (spec : OpenApiSpec) : List (String × String) :=
  spec.paths.foldl
    (fun toolNames (pathEntry : String × PathItem) =>
      methodsList.foldl (extractToolNamesMethodStep pathEntry) toolNames)
    []

/-! ## Orchestration loop (`runAgent`, lines 171-247) -/

/-- A round's token usage. -/
structure Usage where
  promptTokens : Nat
  completionTokens : Nat
  totalTokens : Nat
deriving Repr, DecidableEq

/-- What one invocation of the opaque model function returns: the final
text, the raw steps, the produced messages, and the usage counts.  A stub
model is a function from the round number to such a value. -/
structure StubRound where
  answer : String
  steps : List AIStep
  responseMessages : List Message
  usage : Usage
deriving Repr, DecidableEq

/-- The successful run result `{answer, steps, usage, agentContext}`
(`actions.tsx` lines 237-246). -/
structure RunResult where
  answer : String
  steps : List FormattedStep
  usage : Usage
  agentContext : AgentContext
deriving Repr, DecidableEq

/-- `runAgent` (`actions.tsx` lines 171-247), driven by a stub model
(`stub round` replaces the `generateText` call of round `round`).  `fuel`
bounds the recursion depth (the source has no such bound; `none` models a
run that exceeds the given budget).  The returned `Nat` counts the rounds
executed.

Mirrors the source's order of effects: the user prompt is (re-)appended to
the history every round, then the model's messages, then the trace is
extended and the detector run; if the detector found a bootstrap call the
function recurses with the mutated context and accumulated trace, and the
outer round's `answer`/`usage` are returned with the inner rounds' steps and
the finally-mutated context (the JS context is one shared object, so the
outer `agentContext` reference equals the innermost state).

`prepareAllTools`'s best-effort appending of MCP resource texts to the
history is a network effect, absent in the stub setting modelled here (no
mounted server of the stub runs exposes resources). -/
def runAgent (stub : Nat → StubRound) :
    Nat → Nat → String → AgentContext → List FormattedStep →
    Option (RunResult × Nat)
  | 0, _, _, _, _ => none
  | fuel + 1, round, input, agentContext, initialFormattedSteps =>
    let agentContext := { agentContext with conversation_history :=
      agentContext.conversation_history ++ [Message.mk "user" input] }
    let r := stub round
    let agentContext := { agentContext with conversation_history :=
      agentContext.conversation_history ++ r.responseMessages }
    let formattedSteps := formatOutput r.steps initialFormattedSteps
    let res := checkAndUpdateAgentContextIfConnectionIsInitiated r.steps agentContext
    let newToolsFound := res.1
    let agentContext := res.2
    if newToolsFound then
      match runAgent stub fuel (round + 1) input agentContext formattedSteps with
      | none => none
      | some (inner, n) =>
        some ({ answer := r.answer, steps := inner.steps, usage := r.usage,
                agentContext := inner.agentContext }, n + 1)
    else
      some ({ answer := r.answer, steps := formattedSteps, usage := r.usage,
              agentContext := agentContext }, 1)

/-! ## Invocation boundary (`getAgent`, lines 91-169) -/

/-- `checkRedisConnection`'s result (`lib/redis.ts` lines 75-89). -/
structure RedisStatus where
  connected : Bool
  error : Option String
deriving Repr, DecidableEq

/-- `checkDailyRunLimit`'s result (`lib/redis.ts` lines 96-124). -/
structure LimitResult where
  limitExceeded : Bool
  error : Option String
  currentUsage : Nat
deriving Repr, DecidableEq

/-- The environment `getAgent` reads: configuration variables and the
results its two awaited pre-flight checks would produce. -/
structure GetAgentEnv where
  /-- `process.env.TEST_MODE === 'true'` -/
  testMode : Bool
  /-- `process.env.SKYFIRE_API_KEY || ""` -/
  skyfireApiKeyEnv : String
  /-- `process.env.SKYFIRE_MCP_URL || ""` -/
  skyfireMcpUrl : String
  /-- `parseInt(process.env.DAILY_RUN_CAP || '250', 10)` -/
  dailyRunCap : Nat
  /-- what `checkRedisConnection()` resolves to -/
  redisStatus : RedisStatus
  /-- what `checkDailyRunLimit(dailyCap)` resolves to -/
  limitResult : LimitResult
deriving Repr, DecidableEq

/-- The fixed system prompt (`actions.tsx` lines 50-70).  Its prose is inert
with respect to every property proved here and is abbreviated to its opening
sentence; only the fact that a fresh context starts with exactly this one
system message matters. -/
def systemPrompt : String :=
  "<setup> You are connected to tools from MCP servers and hosted OpenAPI specs (jsons) and are solving problems step by step. </setup>"

/-- The result of `getAgent`: the two structured pre-flight error documents
(each echoing an `agentContext`), a completed run, or fuel exhaustion of the
unbounded recursion model. -/
inductive GetAgentResult
  | redisFailure (message : String) (agentContext : AgentContext)
  | limitFailure (message : String) (dailyCap : Nat) (currentUsage : Nat)
      (agentContext : AgentContext)
  | success (res : RunResult)
  | outOfFuel
deriving Repr, DecidableEq

/-- `getAgent` (`actions.tsx` lines 91-169), with the stub model and fuel of
`runAgent`.  When not in test mode it runs the two pre-flight checks and
returns their error documents — echoing the caller-supplied `agentContext`
untouched — before the fresh Session Context is ever constructed (lines
104-143 precede the reassignment at line 145).  The input record's `prompt`
field is extracted as the source does from its parsed input object. -/
def getAgent (env : GetAgentEnv) (stub : Nat → StubRound) (fuel : Nat)
    (apiKey : String) (input : List (String × String))
    (agentContext : AgentContext) : GetAgentResult :=
  let apiKey := if apiKey = "" then env.skyfireApiKeyEnv else apiKey
  if ¬ env.testMode &&  ¬ env.redisStatus.connected then
    .redisFailure
      ("Redis connection failed: " ++ (env.redisStatus.error.getD "") ++
        ". The agent cannot run without Redis. Please check your Redis configuration.")
      agentContext
  else if ¬ env.testMode && env.limitResult.limitExceeded then
    .limitFailure
      ("Daily run limit exceeded. Maximum " ++ toString env.dailyRunCap ++
        " runs per day allowed. Please try again tomorrow.")
      env.dailyRunCap env.limitResult.currentUsage agentContext
  else
    -- (incrementDailyRunCounter() is awaited here; its effect lives in the
    -- counter store, not in the returned document)
    -- Always create a fresh agent context for each run
    let freshContext : AgentContext :=
      { available_mcp_servers := [⟨env.skyfireMcpUrl, [("skyfire-api-key", apiKey)]⟩]
        dynamically_mounted_server := []
        openApiSpecs := []
        conversation_history := [⟨"system", systemPrompt⟩] }
    let prompt := (input.lookup "prompt").getD ""
    match runAgent stub fuel 0 prompt freshContext [] with
    | none => .outOfFuel
    | some (res, _) => .success res

/-! ## Daily usage counter (`lib/redis.ts`) -/

/-- The slice of Redis state the counter functions touch: integer values and
TTLs by key.  `INCR` creates a missing key at `1` and never changes a TTL;
`EXPIRE` sets one. -/
structure RedisState where
  entries : List (String × Nat)
  ttls : List (String × Nat)
deriving Repr, DecidableEq

/-- Redis `INCR`. -/
def redisIncr (st : RedisState) (key : String) : Nat × RedisState :=
  match st.entries.lookup key with
  | some n => (n + 1, { st with entries := objInsert st.entries key (n + 1) })
  | none => (1, { st with entries := objInsert st.entries key 1 })

/-- Redis `EXPIRE key seconds`. -/
def redisExpire (st : RedisState) (key : String) (seconds : Nat) : RedisState :=
  { st with ttls := objInsert st.ttls key seconds }

/-- The outcome of one `incrementDailyRunCounter` call: the returned count,
the store afterwards, and the TTL set by this call, if any. -/
structure IncrOutcome where
  newCount : Nat
  state : RedisState
  expirySet : Option Nat
deriving Repr, DecidableEq

/-- `incrementDailyRunCounter` (`lib/redis.ts` lines 130-156) on a reachable
store (`redis ≠ null`, no command error — the guarded early returns never
touch the store): `INCR` the date-keyed counter and, exactly when the new
count is 1, set its TTL to 86400 seconds. -/
def incrementDailyRunCounter (st : RedisState) (today : String) : IncrOutcome :=
  let usageKey := "usage:" ++ today
  let r := redisIncr st usageKey
  let newCount := r.1
  let st := r.2
  if newCount = 1 then
    { newCount := newCount, state := redisExpire st usageKey 86400
      expirySet := some 86400 }
  else
    { newCount := newCount, state := st, expirySet := none }

/-! ## Derived observables

Closed-form descriptions of what the detector and formatter do, used to
state the claims.  They are defined from the claims' vocabulary and proved
to coincide with the embedded functions. -/

/-- Whether a tool call is the server-mount bootstrap call. -/
def isConnectCall (tc : AgentToolCall) : Bool :=
  decide (tc.toolName = "connect-mcp-server-tool")

/-- Whether a tool call is the description-compile bootstrap call. -/
def isConvertCall (tc : AgentToolCall) : Bool :=
  decide (tc.toolName = "convert-openapi-spec-to-agent-tool")

/-- Whether a tool call is one of the two bootstrap calls. -/
def isBootstrapToolCall (tc : AgentToolCall) : Bool :=
  isConnectCall tc || isConvertCall tc

/-- Whether any step of a round contains a bootstrap tool call. -/
def hasBootstrapCall (steps : List AIStep) : Bool :=
  steps.any (fun s => s.toolCalls.any isBootstrapToolCall)

/-- Whether any step contains a server-mount call. -/
def hasConnectCall (steps : List AIStep) : Bool :=
  steps.any (fun s => s.toolCalls.any isConnectCall)

/-- Whether any step contains a description-compile call. -/
def hasConvertCall (steps : List AIStep) : Bool :=
  steps.any (fun s => s.toolCalls.any isConvertCall)

/-- The `mcpServerUrl` argument of a server-mount call (missing modelled as
`""`, as in the detector). -/
def connectUrlOf (tc : AgentToolCall) : String :=
  (tc.args.lookup "mcpServerUrl").getD ""

/-- The `openApiSpecUrl` argument of a description-compile call. -/
def convertUrlOf (tc : AgentToolCall) : String :=
  (tc.args.lookup "openApiSpecUrl").getD ""

/-- The URL of the last server-mount call of a tool-call list, starting from
an earlier candidate `acc`. -/
def lastConnectAcc (acc : Option String) (tcs : List AgentToolCall) : Option String :=
  tcs.foldl
    (fun acc tc => if isConnectCall tc then some (connectUrlOf tc) else acc) acc

/-- Same, across the steps of a round. -/
def lastConnectAccSteps (acc : Option String) (steps : List AIStep) : Option String :=
  steps.foldl (fun acc s => lastConnectAcc acc s.toolCalls) acc

/-- The URL of the last server-mount call of a round, if any. -/
def lastConnectUrl (steps : List AIStep) : Option String :=
  lastConnectAccSteps none steps

/-- The mounted-server list after a round: replaced by the last mount's
singleton if a mount happened, untouched otherwise. -/
def mountedFromLast (acc : Option String) (d : List Server) : List Server :=
  match acc with
  | some u => [⟨u, []⟩]
  | none => d

/-- The `openApiSpecs` entries a tool-call list appends, in order. -/
def specsAddedByCalls (tcs : List AgentToolCall) : List SpecRef :=
  tcs.filterMap
    (fun tc => if isConvertCall tc then some ⟨convertUrlOf tc, none⟩ else none)

/-- The `openApiSpecs` entries a round appends, in order. -/
def specsAddedBySteps (steps : List AIStep) : List SpecRef :=
  (steps.map (fun s => specsAddedByCalls s.toolCalls)).flatten

/-- The charset restriction the spec asserts for tool names: lowercase
`[a-z0-9_]`. -/
def validToolNameChars (s : String) : Bool := s.data.all isLowerAlnumU

/-- Whether a raw step contains a token-issuing tool call (those can emit a
second, synthetic formatted step). -/
def hasTokenIssuingCall (s : AIStep) : Bool :=
  s.toolCalls.any (fun tc => tokenIssuingTools.contains tc.toolName)

/-! ## Concrete instances for counterexamples and witnesses -/

/-- A description with one GET operation at `/widget`, summary
`"Get Widget"`, no parameters and no request body. -/
def exWidgetSpec : OpenApiSpec :=
  { paths := [("/widget", { getOp := some { summary := some "Get Widget" } })] }

/-- A description whose only path has an uppercase letter and a dot, and an
operation with neither summary nor operationId: the compiler's path-derived
fallback keeps both characters. -/
def exUsersSpec : OpenApiSpec :=
  { paths := [("/Users.list", { getOp := some {} })] }

/-- The body schema of the malformed-`required` example: properties `a`,`b`,
`required: ["string"]`. -/
def exMalformedBody : BodySchemaSrc :=
  { type := some "object", properties := [("a", {}), ("b", {})]
    required := ["string"] }

/-- An empty initial agent context. -/
def exEmptyContext : AgentContext := ⟨[], [], [], []⟩

/-- A raw step carrying two ordinary (non-bootstrap, non-token-issuing) tool
calls. -/
def exTwoCallStep : AIStep :=
  { text := "t", toolCalls := [⟨"foo", []⟩, ⟨"bar", []⟩], toolResults := [] }

/-- A stub model answering every round with the single two-call step. -/
def exTwoCallStub : Nat → StubRound :=
  fun _ => { answer := "a", steps := [exTwoCallStep], responseMessages := []
             usage := ⟨1, 1, 2⟩ }

/-- A stub model answering with one plain thinking step and no tool calls. -/
def exThinkingStub : Nat → StubRound :=
  fun _ => { answer := "done", steps := [AIStep.mk "thinking" [] []]
             responseMessages := [⟨"assistant", "done"⟩]
             usage := ⟨3, 4, 7⟩ }

/-- A round whose single step mounts two servers in sequence (`u1` then
`u2`). -/
def exTwoConnectSteps : List AIStep :=
  [{ text := ""
     toolCalls := [⟨"connect-mcp-server-tool", [("mcpServerUrl", "https://a.example/u1/mcp")]⟩,
                   ⟨"connect-mcp-server-tool", [("mcpServerUrl", "https://a.example/u2/mcp")]⟩]
     toolResults := [] }]

/-- A round whose single step mounts a JSON-document URL. -/
def exJsonConnectSteps : List AIStep :=
  [{ text := ""
     toolCalls := [⟨"connect-mcp-server-tool", [("mcpServerUrl", "https://seller.example/openapi.json")]⟩]
     toolResults := [] }]

/-- A non-2xx response with a parseable JSON error body. -/
def exErrorResponse : HttpResponse :=
  { status := 402, statusText := "Payment Required", contentTypeJson := true
    jsonBody := .parseOk (some "insufficient balance") "", textBody := "" }

/-- An environment for `getAgent` whose counter store is unreachable. -/
def exRedisDownEnv : GetAgentEnv :=
  { testMode := false, skyfireApiKeyEnv := "k", skyfireMcpUrl := "https://mcp.skyfire.xyz/mcp"
    dailyRunCap := 250, redisStatus := ⟨false, some "ECONNREFUSED"⟩
    limitResult := ⟨false, none, 0⟩ }

/-- An environment for `getAgent` whose daily cap is exhausted. -/
def exLimitEnv : GetAgentEnv :=
  { testMode := false, skyfireApiKeyEnv := "k", skyfireMcpUrl := "https://mcp.skyfire.xyz/mcp"
    dailyRunCap := 250, redisStatus := ⟨true, none⟩
    limitResult := ⟨true, none, 250⟩ }

/-- A 70-character override name (exceeding the 64-character provider
limit). -/
def exLongOverride : String := ⟨List.replicate 70 'a'⟩

/-- A caller-supplied context that is easy to recognize. -/
def exCallerContext : AgentContext :=
  ⟨[⟨"https://caller.example/mcp", []⟩], [⟨"https://dyn.example/mcp", []⟩],
   [⟨"https://spec.example/openapi.json", none⟩], [⟨"user", "old"⟩]⟩

/-! ## Detector characterization lemmas -/

/-- One detector step, in closed form. -/
theorem processToolCall_spec (st : DetectState) (tc : AgentToolCall) :
    processToolCall st tc =
      { newToolsFound := st.newToolsFound || isBootstrapToolCall tc
        mcpServerConnected := st.mcpServerConnected || isConnectCall tc
        openApiSpecsAdded := st.openApiSpecsAdded || isConvertCall tc
        ctx := { st.ctx with
          dynamically_mounted_server :=
            if isConnectCall tc then [⟨connectUrlOf tc, []⟩]
            else st.ctx.dynamically_mounted_server
          openApiSpecs := st.ctx.openApiSpecs ++ specsAddedByCalls [tc] } } := by
  by_cases h1 : tc.toolName = "connect-mcp-server-tool" <;>
    by_cases h2 : tc.toolName = "convert-openapi-spec-to-agent-tool"
  · rw [h1] at h2; exact absurd h2 (by decide)
  all_goals
    simp [processToolCall, isBootstrapToolCall, isConnectCall, isConvertCall,
      specsAddedByCalls, connectUrlOf, convertUrlOf, h1, h2]

/-- `lastConnectAcc` from an arbitrary starting candidate, reduced to the
candidate computed from `none`. -/
theorem lastConnectAcc_eq (tcs : List AgentToolCall) (acc : Option String) :
    lastConnectAcc acc tcs =
      match lastConnectAcc none tcs with
      | some u => some u
      | none => acc := by
  induction tcs generalizing acc with
  | nil => simp [lastConnectAcc]
  | cons tc tcs ih =>
    have hstep : ∀ a : Option String, lastConnectAcc a (tc :: tcs) =
        lastConnectAcc (if isConnectCall tc then some (connectUrlOf tc) else a) tcs :=
      fun a => rfl
    rw [hstep acc, hstep none]
    cases hc : isConnectCall tc with
    | false =>
      simp only [hc, Bool.false_eq_true, if_false]
      exact ih acc
    | true =>
      simp only [hc, if_true]
      rw [ih (some (connectUrlOf tc))]
      rcases lastConnectAcc none tcs with _ | u <;> simp

/-- The detector's inner fold over one step's tool calls, in closed form. -/
theorem foldl_processToolCall_spec (tcs : List AgentToolCall) (st : DetectState) :
    tcs.foldl processToolCall st =
      { newToolsFound := st.newToolsFound || tcs.any isBootstrapToolCall
        mcpServerConnected := st.mcpServerConnected || tcs.any isConnectCall
        openApiSpecsAdded := st.openApiSpecsAdded || tcs.any isConvertCall
        ctx := { st.ctx with
          dynamically_mounted_server :=
            mountedFromLast (lastConnectAcc none tcs) st.ctx.dynamically_mounted_server
          openApiSpecs := st.ctx.openApiSpecs ++ specsAddedByCalls tcs } } := by
  induction tcs generalizing st with
  | nil => simp [mountedFromLast, lastConnectAcc, specsAddedByCalls]
  | cons tc tcs ih =>
    rw [List.foldl_cons, processToolCall_spec, ih]
    have hlast : lastConnectAcc none (tc :: tcs) =
        match lastConnectAcc none tcs with
        | some u => some u
        | none => if isConnectCall tc then some (connectUrlOf tc) else none := by
      show lastConnectAcc (if isConnectCall tc then some (connectUrlOf tc) else none) tcs = _
      exact lastConnectAcc_eq tcs _
    by_cases h : isConnectCall tc = true <;>
      by_cases hcv : isConvertCall tc = true <;>
      rcases hl : lastConnectAcc none tcs with _ | u <;>
      simp_all [mountedFromLast, specsAddedByCalls, List.filterMap_cons,
        Bool.or_assoc, hlast]

/-- `lastConnectAccSteps` from an arbitrary starting candidate. -/
theorem lastConnectAccSteps_eq (steps : List AIStep) (acc : Option String) :
    lastConnectAccSteps acc steps =
      match lastConnectAccSteps none steps with
      | some u => some u
      | none => acc := by
  induction steps generalizing acc with
  | nil => simp [lastConnectAccSteps]
  | cons s steps ih =>
    have hstep : ∀ a : Option String, lastConnectAccSteps a (s :: steps) =
        lastConnectAccSteps (lastConnectAcc a s.toolCalls) steps :=
      fun a => rfl
    rw [hstep acc, hstep none]
    rw [ih (lastConnectAcc acc s.toolCalls), ih (lastConnectAcc none s.toolCalls)]
    rw [lastConnectAcc_eq s.toolCalls acc]
    rcases lastConnectAccSteps none steps with _ | u <;>
      rcases lastConnectAcc none s.toolCalls with _ | v <;> simp

/-- The detector's outer fold over a round's steps, in closed form. -/
theorem detect_foldl_spec (steps : List AIStep) (st : DetectState) :
    steps.foldl
      (fun st step =>
        if step.toolCalls.length > 0 then step.toolCalls.foldl processToolCall st
        else st) st =
      { newToolsFound := st.newToolsFound || hasBootstrapCall steps
        mcpServerConnected := st.mcpServerConnected || hasConnectCall steps
        openApiSpecsAdded := st.openApiSpecsAdded || hasConvertCall steps
        ctx := { st.ctx with
          dynamically_mounted_server :=
            mountedFromLast (lastConnectUrl steps) st.ctx.dynamically_mounted_server
          openApiSpecs := st.ctx.openApiSpecs ++ specsAddedBySteps steps } } := by
  induction steps generalizing st with
  | nil =>
    simp [hasBootstrapCall, hasConnectCall, hasConvertCall, lastConnectUrl,
      lastConnectAccSteps, mountedFromLast, specsAddedBySteps]
  | cons s steps ih =>
    have hguard :
        (if s.toolCalls.length > 0 then s.toolCalls.foldl processToolCall st
         else st) = s.toolCalls.foldl processToolCall st := by
      rcases htc : s.toolCalls with _ | _ <;> simp [htc]
    rw [List.foldl_cons, hguard, foldl_processToolCall_spec, ih]
    have hlast : lastConnectUrl (s :: steps) =
        match lastConnectUrl steps with
        | some u => some u
        | none => lastConnectAcc none s.toolCalls := by
      show lastConnectAccSteps (lastConnectAcc none s.toolCalls) steps = _
      exact lastConnectAccSteps_eq steps _
    rcases hl : lastConnectUrl steps with _ | u <;>
      rcases hl2 : lastConnectAcc none s.toolCalls with _ | v <;>
      simp_all [hasBootstrapCall, hasConnectCall, hasConvertCall,
        specsAddedBySteps, mountedFromLast, Bool.or_assoc, hlast]

/-- `checkAndUpdateAgentContextIfConnectionIsInitiated`, in closed form:
the flag is exactly "some bootstrap call occurred"; the mounted-server list
is replaced by the singleton of the last mount (or untouched); the compiled
descriptions are appended in call order; the history grows by exactly one
synthetic system message when a bootstrap call occurred, none otherwise;
nothing else changes. -/
theorem checkAndUpdate_spec (steps : List AIStep) (ctx : AgentContext) :
    checkAndUpdateAgentContextIfConnectionIsInitiated steps ctx =
      (hasBootstrapCall steps,
       { available_mcp_servers := ctx.available_mcp_servers
         dynamically_mounted_server :=
           mountedFromLast (lastConnectUrl steps) ctx.dynamically_mounted_server
         openApiSpecs := ctx.openApiSpecs ++ specsAddedBySteps steps
         conversation_history := ctx.conversation_history ++
           (if hasConnectCall steps || hasConvertCall steps then
              [⟨"system", bootstrapSystemMessage (hasConnectCall steps)
                  (hasConvertCall steps)⟩]
            else []) }) := by
  unfold checkAndUpdateAgentContextIfConnectionIsInitiated
  rw [detect_foldl_spec]
  by_cases h : (hasConnectCall steps || hasConvertCall steps) = true <;> simp_all

/-- `any` distributes over a pointwise disjunction. -/
theorem any_or_distrib (l : List α) (f g : α → Bool) :
    l.any (fun x => f x || g x) = (l.any f || l.any g) := by
  induction l with
  | nil => rfl
  | cons x l ih =>
    simp only [List.any_cons, ih]
    cases f x <;> cases g x <;> simp

/-- A bootstrap call is a mount call or a compile call. -/
theorem hasBootstrapCall_eq (steps : List AIStep) :
    hasBootstrapCall steps = (hasConnectCall steps || hasConvertCall steps) := by
  have h1 : ∀ s : AIStep, s.toolCalls.any isBootstrapToolCall =
      (s.toolCalls.any isConnectCall || s.toolCalls.any isConvertCall) :=
    fun s => any_or_distrib s.toolCalls isConnectCall isConvertCall
  show (steps.any fun s => s.toolCalls.any isBootstrapToolCall) = _
  simp only [h1]
  exact any_or_distrib steps _ _

/-! ## Formatter lemmas -/

/-- Every step the per-call formatter emits has index field 1. -/
theorem formatToolCall_step_eq_one (s : AIStep) (tc : AgentToolCall)
    (tr : Option AgentToolResult) (fs : FormattedStep)
    (h : fs ∈ formatToolCall s tc tr) : fs.step = 1 := by
  unfold formatToolCall at h
  rcases List.mem_cons.mp h with h | h
  · rw [h]
  · rcases hc : tokenIssuingTools.contains tc.toolName with _ | _ <;> rw [hc] at h
    · simp at h
    · rcases hd : getDecodedJWT tr with _ | ⟨tok, hd', pl, ok⟩ <;> rw [hd] at h
      · simp at h
      · rcases ok with _ | _ <;> simp [pushFormattedSteps] at h
        rw [h]

/-- Every step the formatter emits for one raw step has index field 1. -/
theorem formatOutputStep_step_eq_one (s : AIStep) (fs : FormattedStep)
    (h : fs ∈ formatOutputStep s) : fs.step = 1 := by
  unfold formatOutputStep at h
  by_cases hl : s.toolCalls.length > 0
  · rw [if_pos hl] at h
    rcases List.mem_flatten.mp h with ⟨l, hlmem, hfl⟩
    rcases List.mem_map.mp hlmem with ⟨i, _, hli⟩
    rcases hg : s.toolCalls.get? i with _ | tc <;> rw [hg] at hli
    · rw [← hli] at hfl; simp at hfl
    · exact formatToolCall_step_eq_one s tc _ fs (hli ▸ hfl)
  · rw [if_neg hl] at h
    simp at h
    rw [h]

/-- With at most one tool call and no token-issuing call, a raw step formats
to exactly one entry. -/
theorem formatOutputStep_length_one (s : AIStep)
    (h1 : s.toolCalls.length ≤ 1) (h2 : hasTokenIssuingCall s = false) :
    (formatOutputStep s).length = 1 := by
  rcases htc : s.toolCalls with _ | ⟨tc, rest⟩
  · simp [formatOutputStep, htc]
  · have hrest : rest = [] := by
      rw [htc] at h1
      simp only [List.length_cons] at h1
      exact List.length_eq_zero.mp (Nat.le_zero.mp (Nat.le_of_succ_le_succ h1))
    subst hrest
    have hni : tokenIssuingTools.contains tc.toolName = false := by
      simp only [hasTokenIssuingCall, htc] at h2
      simpa using h2
    have hfmt : formatOutputStep s = formatToolCall s tc (s.toolResults.get? 0) := by
      simp [formatOutputStep, htc, List.range_succ]
    rw [hfmt]
    unfold formatToolCall
    simp only [hni, Bool.false_eq_true, if_false, List.length_cons, List.length_nil]

/-- The sum of per-step lengths collapses when each is 1. -/
theorem sum_lengths_eq_length (l : List AIStep)
    (h : ∀ s ∈ l, (formatOutputStep s).length = 1) :
    ((l.map formatOutputStep).map List.length).sum = l.length := by
  induction l with
  | nil => rfl
  | cons s l ih =>
    simp only [List.map_cons, List.sum_cons, h s (List.mem_cons_self s l),
      List.length_cons]
    rw [ih (fun x hx => h x (List.mem_cons_of_mem s hx))]
    omega

/-- The formatter appends; its output length is the accumulated sum. -/
theorem formatOutput_length (steps : List AIStep) (init : List FormattedStep) :
    (formatOutput steps init).length =
      init.length + ((steps.map formatOutputStep).map List.length).sum := by
  simp [formatOutput]

/-! ## Claim theorems: orchestration loop -/

/-- C1 (amended): for a stub model whose first round carries no bootstrap
tool call, `runAgent` terminates after exactly one round (no recursive
call); the returned trace is the initial trace extended by the formatter
output, and — when each stub step carries at most one tool call and no
token-issuing call — the returned trace length equals the initial length
plus the number of stub steps.  (The unamended claim, that the trace length
always equals the number of stub steps, fails: a step with several tool
calls formats to one entry per call; see the counterexample.) -/
theorem claim1_single_round_trace (stub : Nat → StubRound) (fuel : Nat)
    (input : String) (ctx : AgentContext) (init : List FormattedStep)
    (hb : hasBootstrapCall (stub 0).steps = false) :
    ∃ res : RunResult,
      runAgent stub (fuel + 1) 0 input ctx init = some (res, 1) ∧
      res.steps = formatOutput (stub 0).steps init ∧
      ((∀ s ∈ (stub 0).steps,
          s.toolCalls.length ≤ 1 ∧ hasTokenIssuingCall s = false) →
        res.steps.length = init.length + (stub 0).steps.length) := by
  simp only [runAgent, checkAndUpdate_spec, hb, Bool.false_eq_true, if_false]
  refine ⟨_, rfl, rfl, ?_⟩
  intro h
  rw [formatOutput_length, sum_lengths_eq_length]
  intro s hs
  exact formatOutputStep_length_one s (h s hs).1 (h s hs).2

/-- Witness for C1's amended theorem at a one-step thinking stub. -/
theorem claim1_single_round_trace_witness :
    ∃ res : RunResult,
      runAgent exThinkingStub 1 0 "q" exEmptyContext [] = some (res, 1) ∧
      res.steps = formatOutput (exThinkingStub 0).steps [] ∧
      ((∀ s ∈ (exThinkingStub 0).steps,
          s.toolCalls.length ≤ 1 ∧ hasTokenIssuingCall s = false) →
        res.steps.length = 1) :=
  claim1_single_round_trace exThinkingStub 0 "q" exEmptyContext [] (by decide)

/-- C1 counterexample: a stub whose single step carries two ordinary tool
calls still terminates after one round, but the returned trace has length 2
while the stub returned 1 step — the claimed equality of lengths fails. -/
theorem claim1_trace_length_counterexample :
    (runAgent exTwoCallStub 1 0 "hi" exEmptyContext []).map
      (fun p => (p.1.steps.length, p.2)) = some (2, 1) ∧
    (exTwoCallStub 0).steps.length = 1 :=
  ⟨rfl, rfl⟩

/-- C9: every `FormattedStep` the Step Formatter emits — tool steps,
thinking steps and synthetic token-decoding steps alike — carries the same
fixed index `1` in its `step` field; the index is therefore constant, never
monotonically increasing. -/
theorem claim9_step_index_constant (steps : List AIStep) (fs : FormattedStep)
    (h : fs ∈ formatOutput steps []) : fs.step = 1 := by
  simp only [formatOutput, List.nil_append] at h
  rcases List.mem_flatten.mp h with ⟨l, hl, hfs⟩
  rcases List.mem_map.mp hl with ⟨s, _, rfl⟩
  exact formatOutputStep_step_eq_one s fs hfs

/-- Witness for C9 at a concrete one-step round. -/
theorem claim9_step_index_constant_witness :
    (FormattedStep.mk 1 "think" "thinking" [] FormattedResult.nullResult).step = 1 :=
  claim9_step_index_constant [AIStep.mk "think" [] []] _ (by decide)

/-- C2 (amended): for a round with at least one bootstrap call, the detector
reports the round as tool-expanding; each description call appends one
compiled-description reference in call order; BUT each server-mount call
replaces the mounted-server list by the singleton of its own URL (the last
mount wins — previously mounted dynamic servers are discarded, not
preserved), and exactly ONE synthetic system message is appended per round,
not one per match.  (The unamended per-match message count and the
order-preserving mount both fail; see the counterexample.) -/
theorem claim2_detector_amended (steps : List AIStep) (ctx : AgentContext)
    (h : hasBootstrapCall steps = true) :
    (checkAndUpdateAgentContextIfConnectionIsInitiated steps ctx).1 = true ∧
    (checkAndUpdateAgentContextIfConnectionIsInitiated steps ctx).2.dynamically_mounted_server =
      mountedFromLast (lastConnectUrl steps) ctx.dynamically_mounted_server ∧
    (checkAndUpdateAgentContextIfConnectionIsInitiated steps ctx).2.openApiSpecs =
      ctx.openApiSpecs ++ specsAddedBySteps steps ∧
    (checkAndUpdateAgentContextIfConnectionIsInitiated steps ctx).2.conversation_history.length =
      ctx.conversation_history.length + 1 := by
  have h2 : (hasConnectCall steps || hasConvertCall steps) = true := by
    rw [← hasBootstrapCall_eq]; exact h
  rw [checkAndUpdate_spec]
  simp [h, h2]

/-- Witness for C2's amended theorem at a round with two mount calls. -/
theorem claim2_detector_amended_witness :
    (checkAndUpdateAgentContextIfConnectionIsInitiated exTwoConnectSteps exEmptyContext).1 = true ∧
    (checkAndUpdateAgentContextIfConnectionIsInitiated exTwoConnectSteps
        exEmptyContext).2.conversation_history.length =
      exEmptyContext.conversation_history.length + 1 :=
  ⟨(claim2_detector_amended exTwoConnectSteps exEmptyContext (by decide)).1,
   (claim2_detector_amended exTwoConnectSteps exEmptyContext (by decide)).2.2.2⟩

/-- C2 counterexample: a round with two server-mount calls (`u1` then `u2`)
leaves only `u2` mounted — `u1` is not preserved — and appends exactly one
synthetic system message, not one per match. -/
theorem claim2_detector_counterexample :
    (checkAndUpdateAgentContextIfConnectionIsInitiated exTwoConnectSteps
        exEmptyContext).2.dynamically_mounted_server =
      [⟨"https://a.example/u2/mcp", []⟩] ∧
    Server.mk "https://a.example/u1/mcp" [] ∉
      (checkAndUpdateAgentContextIfConnectionIsInitiated exTwoConnectSteps
        exEmptyContext).2.dynamically_mounted_server ∧
    (checkAndUpdateAgentContextIfConnectionIsInitiated exTwoConnectSteps
        exEmptyContext).2.conversation_history.length = 1 :=
  ⟨rfl, by decide, rfl⟩

/-- C3 (amended): if the last server-mount call of round 1 carries URL `U`
and `U` is classified as an MCP-server URL by the registry builder's filter
(it does not end in `.json`, and ends in `/mcp` or `/sse` or contains no
`.json`), then after round 1 the context's mounted-server list is exactly
`[U]` and round 2's registry build attempts a transport connection to `U`.
(The unamended claim, for arbitrary `U`, fails: a `U` ending in `.json` is
mounted but skipped by the filter; see the counterexample.) -/
theorem claim3_mount_then_connect (steps : List AIStep) (ctx : AgentContext)
    (U : String)
    (h1 : lastConnectUrl steps = some U)
    (h2 : mcpServerFilter ⟨U, []⟩ = true) :
    (checkAndUpdateAgentContextIfConnectionIsInitiated steps ctx).2.dynamically_mounted_server =
      [⟨U, []⟩] ∧
    U ∈ prepareAllToolsConnectionAttempts
        (checkAndUpdateAgentContextIfConnectionIsInitiated steps ctx).2 := by
  rw [checkAndUpdate_spec]
  refine ⟨by simp [h1, mountedFromLast], ?_⟩
  simp only [prepareAllToolsConnectionAttempts, h1, mountedFromLast]
  exact List.mem_map.mpr ⟨⟨U, []⟩,
    List.mem_filter.mpr ⟨List.mem_append_right _ (List.mem_singleton.mpr rfl), h2⟩,
    rfl⟩

/-- Witness for C3's amended theorem at a concrete `/mcp` URL. -/
theorem claim3_mount_then_connect_witness :
    (checkAndUpdateAgentContextIfConnectionIsInitiated exTwoConnectSteps
        exEmptyContext).2.dynamically_mounted_server =
      [⟨"https://a.example/u2/mcp", []⟩] ∧
    "https://a.example/u2/mcp" ∈ prepareAllToolsConnectionAttempts
        (checkAndUpdateAgentContextIfConnectionIsInitiated exTwoConnectSteps
          exEmptyContext).2 :=
  claim3_mount_then_connect exTwoConnectSteps exEmptyContext
    "https://a.example/u2/mcp" (by decide) (by decide)

/-- C3 counterexample: mounting a `.json` URL puts it into the context, but
round 2's registry build attempts no transport connection to it (the filter
skips JSON-document URLs), refuting the unconditional claim. -/
theorem claim3_connect_counterexample :
    (checkAndUpdateAgentContextIfConnectionIsInitiated exJsonConnectSteps
        exEmptyContext).2.dynamically_mounted_server =
      [⟨"https://seller.example/openapi.json", []⟩] ∧
    prepareAllToolsConnectionAttempts
      (checkAndUpdateAgentContextIfConnectionIsInitiated exJsonConnectSteps
        exEmptyContext).2 = [] :=
  ⟨rfl, rfl⟩

/-! ## Schema-compiler lemmas -/

/-- Assigning a key leaves the key set unchanged when the key exists, else
appends it. -/
theorem keys_objInsert (l : List (String × α)) (k : String) (v : α) :
    (objInsert l k v).map Prod.fst =
      if l.any (fun p => p.1 = k) then l.map Prod.fst
      else l.map Prod.fst ++ [k] := by
  unfold objInsert
  split
  · rw [List.map_map]
    refine List.map_congr_left ?_
    intro p _
    by_cases hp : p.1 = k <;> simp [hp]
  · simp

/-- The assigned key is always present afterwards. -/
theorem mem_keys_objInsert_self (l : List (String × α)) (k : String) (v : α) :
    k ∈ (objInsert l k v).map Prod.fst := by
  rw [keys_objInsert]
  split
  · rename_i h
    rcases List.any_eq_true.mp h with ⟨p, hp, hpk⟩
    exact List.mem_map.mpr ⟨p, hp, by simpa using hpk⟩
  · exact List.mem_append_right _ (List.mem_singleton.mpr rfl)

/-- Existing keys survive an assignment. -/
theorem mem_keys_objInsert_of_mem (l : List (String × α)) (k k' : String) (v : α)
    (h : k' ∈ l.map Prod.fst) : k' ∈ (objInsert l k v).map Prod.fst := by
  rw [keys_objInsert]
  split
  · exact h
  · exact List.mem_append_left _ h

/-- Every entry of an assigned object is the assigned pair or an original
entry. -/
theorem mem_objInsert (l : List (String × α)) (k : String) (v : α)
    (kv : String × α) (h : kv ∈ objInsert l k v) : kv = (k, v) ∨ kv ∈ l := by
  unfold objInsert at h
  split at h
  · rcases List.mem_map.mp h with ⟨p, hp, hpe⟩
    by_cases hpk : p.1 = k
    · simp only [hpk, if_true] at hpe
      exact Or.inl hpe.symm
    · simp only [hpk, if_false] at hpe
      exact Or.inr (hpe ▸ hp)
  · rcases List.mem_append.mp h with h | h
    · exact Or.inr h
    · exact Or.inl (List.mem_singleton.mp h)

/-- The properties component of the parameter loop is the plain
key-insertion fold. -/
theorem fst_foldl_paramsAccumStep (ps : List Param)
    (st : List (String × PropSchema) × List String) :
    (ps.foldl paramsAccumStep st).1 =
      ps.foldl (fun l p => objInsert l p.name (convertParameterToJsonSchema p)) st.1 := by
  induction ps generalizing st with
  | nil => rfl
  | cons p ps ih => exact ih (paramsAccumStep st p)

/-- The properties component of the body loop is the plain key-insertion
fold. -/
theorem fst_foldl_bodyAccumStep (sr : List String) (bs : List (String × BodyPropSrc))
    (st : List (String × PropSchema) × List String) :
    (bs.foldl (bodyAccumStep sr) st).1 =
      bs.foldl (fun l p => objInsert l p.1 (convertBodyProp p.1 p.2)) st.1 := by
  induction bs generalizing st with
  | nil => rfl
  | cons p bs ih => exact ih (bodyAccumStep sr st p)

/-- Keys survive the parameter insertion fold. -/
theorem mem_keys_paramsFold (ps : List Param) (l : List (String × PropSchema))
    (k : String) (h : k ∈ l.map Prod.fst) :
    k ∈ (ps.foldl (fun l p => objInsert l p.name (convertParameterToJsonSchema p)) l).map
      Prod.fst := by
  induction ps generalizing l with
  | nil => exact h
  | cons p ps ih => exact ih _ (mem_keys_objInsert_of_mem _ _ _ _ h)

/-- Every parameter name is a key of the parameter insertion fold. -/
theorem name_mem_keys_paramsFold (ps : List Param) (l : List (String × PropSchema))
    (p : Param) (hp : p ∈ ps) :
    p.name ∈ (ps.foldl (fun l p => objInsert l p.name (convertParameterToJsonSchema p)) l).map
      Prod.fst := by
  induction ps generalizing l with
  | nil => cases hp
  | cons q ps ih =>
    rcases List.mem_cons.mp hp with h | h
    · subst h
      exact mem_keys_paramsFold ps _ p.name (mem_keys_objInsert_self _ _ _)
    · exact ih _ h

/-- Keys survive the body-property insertion fold. -/
theorem mem_keys_bodyFold (bs : List (String × BodyPropSrc))
    (l : List (String × PropSchema)) (k : String) (h : k ∈ l.map Prod.fst) :
    k ∈ (bs.foldl (fun l p => objInsert l p.1 (convertBodyProp p.1 p.2)) l).map
      Prod.fst := by
  induction bs generalizing l with
  | nil => exact h
  | cons p bs ih => exact ih _ (mem_keys_objInsert_of_mem _ _ _ _ h)

/-- Every body-property name is a key of the body-property insertion fold. -/
theorem name_mem_keys_bodyFold (bs : List (String × BodyPropSrc))
    (l : List (String × PropSchema)) (p : String × BodyPropSrc) (hp : p ∈ bs) :
    p.1 ∈ (bs.foldl (fun l p => objInsert l p.1 (convertBodyProp p.1 p.2)) l).map
      Prod.fst := by
  induction bs generalizing l with
  | nil => cases hp
  | cons q bs ih =>
    rcases List.mem_cons.mp hp with h | h
    · subst h
      exact mem_keys_bodyFold bs _ p.1 (mem_keys_objInsert_self _ _ _)
    · exact ih _ h

/-- The compiled properties object of `convertParametersToJsonSchema`
contains the token key, every parameter name, and — for an object-typed body
— every top-level body-property name. -/
theorem convertParameters_keys_complete (parameters : List Param)
    (requestBody : Option BodySchemaSrc) (k : String)
    (h : k = "skyfire_kya_pay_token" ∨ (∃ p ∈ parameters, p.name = k) ∨
      (∃ rb, requestBody = some rb ∧ rb.type = some "object" ∧
        ∃ p ∈ rb.properties, p.1 = k)) :
    k ∈ (convertParametersToJsonSchema parameters requestBody).properties.map
      Prod.fst := by
  have hst1 : (parameters.foldl paramsAccumStep
      (objInsert [] "skyfire_kya_pay_token" skyfireTokenProp,
        ([] : List String))).1 =
      parameters.foldl (fun l p => objInsert l p.name (convertParameterToJsonSchema p))
        (objInsert [] "skyfire_kya_pay_token" skyfireTokenProp) :=
    fst_foldl_paramsAccumStep parameters _
  have hmem1 : (k = "skyfire_kya_pay_token" ∨ ∃ p ∈ parameters, p.name = k) →
      k ∈ (parameters.foldl paramsAccumStep
        (objInsert [] "skyfire_kya_pay_token" skyfireTokenProp,
          ([] : List String))).1.map Prod.fst := by
    intro hk
    rw [hst1]
    rcases hk with hk | ⟨p, hp, hpk⟩
    · subst hk
      exact mem_keys_paramsFold _ _ _ (mem_keys_objInsert_self _ _ _)
    · exact hpk ▸ name_mem_keys_paramsFold parameters _ p hp
  unfold convertParametersToJsonSchema
  rcases requestBody with _ | rb
  · simp only []
    rcases h with hk | ⟨p, hp, hpk⟩ | ⟨rb, hrb, _⟩
    · exact hmem1 (Or.inl hk)
    · exact hmem1 (Or.inr ⟨p, hp, hpk⟩)
    · cases hrb
  · by_cases ht : rb.type = some "object"
    · simp only [ht, if_true]
      have hsplit : ∀ stb : List (String × PropSchema) × List String,
          ((if rb.required = ["string"] then
              (stb.1,
               rb.properties.foldl
                 (fun (req : List String) (p : String × BodyPropSrc) =>
                   if req.contains p.1 then req else req ++ [p.1]) stb.2)
            else stb)).1 = stb.1 := by
        intro stb; split <;> rfl
      rw [hsplit, fst_foldl_bodyAccumStep]
      rcases h with hk | ⟨p, hp, hpk⟩ | ⟨rb', hrb', _, q, hq, hqk⟩
      · exact mem_keys_bodyFold _ _ _ (hmem1 (Or.inl hk))
      · exact mem_keys_bodyFold _ _ _ (hmem1 (Or.inr ⟨p, hp, hpk⟩))
      · cases hrb'
        exact hqk ▸ name_mem_keys_bodyFold _ _ q hq
    · simp only [ht, if_false]
      rcases h with hk | ⟨p, hp, hpk⟩ | ⟨rb', hrb', ht', _⟩
      · exact hmem1 (Or.inl hk)
      · exact hmem1 (Or.inr ⟨p, hp, hpk⟩)
      · cases hrb'; exact absurd ht' ht

/-! ## Claim theorems: Service-Description Compiler -/

/-- C4: for every operation, the compiled parameter schema's `required` list
is exactly the list of all property names (the injected token property plus
every parameter and every flattened top-level body property, each of which
is a property key); in particular, for a body declaring
`required: ["string"]` with properties `a`, `b`, the effective required set
is `skyfire_kya_pay_token, a, b` and does not contain `"string"`. -/
theorem claim4_required_equals_properties (parameters : List Param)
    (requestBody : Option BodySchemaSrc) :
    (convertParametersToJsonSchema parameters requestBody).required =
      (convertParametersToJsonSchema parameters requestBody).properties.map Prod.fst ∧
    "skyfire_kya_pay_token" ∈ (convertParametersToJsonSchema parameters requestBody).required ∧
    (∀ p ∈ parameters, p.name ∈ (convertParametersToJsonSchema parameters requestBody).required) ∧
    (∀ rb, requestBody = some rb → rb.type = some "object" →
      ∀ p ∈ rb.properties, p.1 ∈ (convertParametersToJsonSchema parameters requestBody).required) ∧
    (convertParametersToJsonSchema [] (some exMalformedBody)).required =
      ["skyfire_kya_pay_token", "a", "b"] ∧
    "string" ∉ (convertParametersToJsonSchema [] (some exMalformedBody)).required := by
  have hreq : (convertParametersToJsonSchema parameters requestBody).required =
      (convertParametersToJsonSchema parameters requestBody).properties.map Prod.fst := rfl
  refine ⟨hreq, ?_, ?_, ?_, rfl, by decide⟩
  · rw [hreq]
    exact convertParameters_keys_complete parameters requestBody _ (Or.inl rfl)
  · intro p hp
    rw [hreq]
    exact convertParameters_keys_complete parameters requestBody _
      (Or.inr (Or.inl ⟨p, hp, rfl⟩))
  · intro rb hrb ht p hp
    rw [hreq]
    exact convertParameters_keys_complete parameters requestBody _
      (Or.inr (Or.inr ⟨rb, hrb, ht, p, hp, rfl⟩))

/-- Witness for C4 at one path parameter and the malformed body. -/
theorem claim4_required_equals_properties_witness :
    "skyfire_kya_pay_token" ∈
      (convertParametersToJsonSchema [Param.mk "pid" "path" false none none]
        (some exMalformedBody)).required ∧
    "pid" ∈ (convertParametersToJsonSchema [Param.mk "pid" "path" false none none]
        (some exMalformedBody)).required ∧
    "a" ∈ (convertParametersToJsonSchema [Param.mk "pid" "path" false none none]
        (some exMalformedBody)).required :=
  ⟨(claim4_required_equals_properties [Param.mk "pid" "path" false none none]
      (some exMalformedBody)).2.1,
   (claim4_required_equals_properties [Param.mk "pid" "path" false none none]
      (some exMalformedBody)).2.2.1 (Param.mk "pid" "path" false none none)
      (by decide),
   (claim4_required_equals_properties [Param.mk "pid" "path" false none none]
      (some exMalformedBody)).2.2.2.1 exMalformedBody rfl rfl ("a", {}) (by decide)⟩

/-! ## Lookup lemmas for the counter store -/

/-- Overwriting assignment: the key maps to the new value. -/
theorem lookup_map_overwrite (k : String) (v : α) (l : List (String × α))
    (h : l.any (fun p => p.1 = k) = true) :
    (l.map (fun p => if p.1 = k then (k, v) else p)).lookup k = some v := by
  induction l with
  | nil => simp at h
  | cons p l ih =>
    obtain ⟨pk, pv⟩ := p
    by_cases hp : pk = k
    · subst hp
      simp
    · have hb : (k == pk) = false := beq_eq_false_iff_ne.mpr (Ne.symm hp)
      simp only [List.any_cons, Bool.or_eq_true, decide_eq_true_eq] at h
      rcases h with h | h
      · exact absurd h hp
      · simp only [List.map_cons, hp, if_false, List.lookup_cons, hb]
        exact ih h

/-- Appending assignment: the fresh key maps to the new value. -/
theorem lookup_append_fresh (k : String) (v : α) (l : List (String × α))
    (h : l.any (fun p => p.1 = k) = false) :
    (l ++ [(k, v)]).lookup k = some v := by
  induction l with
  | nil => simp
  | cons p l ih =>
    obtain ⟨pk, pv⟩ := p
    simp only [List.any_cons, Bool.or_eq_false_iff, decide_eq_false_iff_not] at h
    have hb : (k == pk) = false := beq_eq_false_iff_ne.mpr (Ne.symm h.1)
    simp only [List.cons_append, List.lookup_cons, hb]
    exact ih h.2

/-- After an assignment, looking the key up yields the assigned value. -/
theorem lookup_objInsert_self (l : List (String × α)) (k : String) (v : α) :
    (objInsert l k v).lookup k = some v := by
  unfold objInsert
  split
  · exact lookup_map_overwrite k v l (by assumption)
  · rename_i hany
    exact lookup_append_fresh k v l (Bool.eq_false_iff.mpr hany)

/-! ## Claim theorems: executor, widget example, counter, invocation boundary -/

/-- C6: a compiled-tool executor that sees a non-2xx response returns (never
throws past its boundary — the embedded handler is a total function) a text
outcome of the exact shape
`Error: HTTP error! status: <status>, message: <msg>`, where `<msg>` is the
JSON error body's `error` field when the body parses and the field is
truthy, else the status text; a transport or body-parse failure likewise
returns a text outcome `Error: <msg>`. -/
theorem claim6_executor_handled_failures (r : HttpResponse)
    (h : r.status < 200 ∨ 300 ≤ r.status) :
    (∃ msg, executeToolRequest (.response r) =
        ⟨[⟨"text", "Error: HTTP error! status: " ++ toString r.status ++
            ", message: " ++ msg⟩]⟩ ∧
      (match r.jsonBody with
       | .parseOk (some e) _ => msg = e
       | _ => msg = r.statusText)) ∧
    (∀ m, executeToolRequest (.transportError m) =
      ⟨[⟨"text", "Error: " ++ m⟩]⟩) := by
  have hok : r.ok = false := by
    rcases h with h | h <;> simp [HttpResponse.ok] <;> omega
  refine ⟨?_, fun m => rfl⟩
  unfold executeToolRequest
  simp only [hok, Bool.false_eq_true, not_false_eq_true, if_true]
  rcases hj : r.jsonBody with ⟨ef, rend⟩ | pmsg
  · rcases ef with _ | e
    · exact ⟨r.statusText, rfl, by simp [hj]⟩
    · exact ⟨e, rfl, by simp [hj]⟩
  · exact ⟨r.statusText, rfl, by simp [hj]⟩

/-- Witness for C6 at a 402 response with a JSON error body. -/
theorem claim6_executor_handled_failures_witness :
    executeToolRequest (.response exErrorResponse) =
      ⟨[⟨"text", "Error: HTTP error! status: 402, message: insufficient balance"⟩]⟩ := by
  obtain ⟨msg, he, hm⟩ :=
    (claim6_executor_handled_failures exErrorResponse (Or.inr (by decide))).1
  simp only [exErrorResponse] at hm
  rw [he, hm]
  rfl

/-- C7: the one-GET-`/widget` description with summary `"Get Widget"`
compiles to exactly one tool named `get_widget`, whose parameter schema has
exactly one property — the injected `skyfire_kya_pay_token` — and requires
exactly that property. -/
theorem claim7_widget_compilation :
    (generateTools [] exWidgetSpec).map Prod.fst = ["get_widget"] ∧
    (generateTools [] exWidgetSpec).map
      (fun t => t.2.parameters.properties.map Prod.fst) =
      [["skyfire_kya_pay_token"]] ∧
    (generateTools [] exWidgetSpec).map (fun t => t.2.parameters.required) =
      [["skyfire_kya_pay_token"]] :=
  ⟨rfl, rfl, rfl⟩

/-- C8: on a reachable counter store with no entry for the current date, the
first increment returns count 1 and sets an expiry of exactly 86400 seconds
on the date-keyed entry; the second increment the same date returns count 2,
sets no new expiry, and leaves the 86400-second expiry in place. -/
theorem claim8_counter_roundtrip (st : RedisState) (today : String)
    (h : st.entries.lookup ("usage:" ++ today) = none) :
    (incrementDailyRunCounter st today).newCount = 1 ∧
    (incrementDailyRunCounter st today).expirySet = some 86400 ∧
    (incrementDailyRunCounter (incrementDailyRunCounter st today).state today).newCount = 2 ∧
    (incrementDailyRunCounter (incrementDailyRunCounter st today).state today).expirySet = none ∧
    (incrementDailyRunCounter
        (incrementDailyRunCounter st today).state today).state.ttls.lookup
      ("usage:" ++ today) = some 86400 := by
  have hl1 : (objInsert st.entries ("usage:" ++ today) 1).lookup ("usage:" ++ today) =
      some 1 := lookup_objInsert_self _ _ _
  have hl2 : (objInsert st.ttls ("usage:" ++ today) 86400).lookup ("usage:" ++ today) =
      some 86400 := lookup_objInsert_self _ _ _
  simp [incrementDailyRunCounter, redisIncr, redisExpire, h, hl1, hl2]

/-- Witness for C8 at the empty store. -/
theorem claim8_counter_roundtrip_witness :
    (incrementDailyRunCounter ⟨[], []⟩ "2026-10-12").newCount = 1 ∧
    (incrementDailyRunCounter ⟨[], []⟩ "2026-10-12").expirySet = some 86400 ∧
    (incrementDailyRunCounter
      (incrementDailyRunCounter ⟨[], []⟩ "2026-10-12").state "2026-10-12").newCount = 2 ∧
    (incrementDailyRunCounter
      (incrementDailyRunCounter ⟨[], []⟩ "2026-10-12").state "2026-10-12").expirySet = none ∧
    (incrementDailyRunCounter
        (incrementDailyRunCounter ⟨[], []⟩ "2026-10-12").state "2026-10-12").state.ttls.lookup
      ("usage:" ++ "2026-10-12") = some 86400 :=
  claim8_counter_roundtrip ⟨[], []⟩ "2026-10-12" rfl

/-- C10: when not in test mode, both pre-flight error paths of `getAgent`
(the counter store unreachable, and the daily limit exceeded) return their
error documents with `agentContext` exactly the caller-supplied context,
unmodified — the fresh Session Context is only built after both checks
pass. -/
theorem claim10_preflight_context_untouched (env : GetAgentEnv)
    (stub : Nat → StubRound) (fuel : Nat) (apiKey : String)
    (input : List (String × String)) (ctx : AgentContext)
    (ht : env.testMode = false) :
    (env.redisStatus.connected = false →
      getAgent env stub fuel apiKey input ctx =
        .redisFailure ("Redis connection failed: " ++ (env.redisStatus.error.getD "") ++
          ". The agent cannot run without Redis. Please check your Redis configuration.")
          ctx) ∧
    (env.redisStatus.connected = true → env.limitResult.limitExceeded = true →
      getAgent env stub fuel apiKey input ctx =
        .limitFailure ("Daily run limit exceeded. Maximum " ++ toString env.dailyRunCap ++
          " runs per day allowed. Please try again tomorrow.")
          env.dailyRunCap env.limitResult.currentUsage ctx) := by
  constructor
  · intro hr
    simp [getAgent, ht, hr]
  · intro hr hl
    simp [getAgent, ht, hr, hl]

/-- Witness for C10 at both concrete failing environments. -/
theorem claim10_preflight_context_untouched_witness :
    getAgent exRedisDownEnv exThinkingStub 1 "k" [("prompt", "q")] exCallerContext =
      .redisFailure ("Redis connection failed: " ++
        (exRedisDownEnv.redisStatus.error.getD "") ++
        ". The agent cannot run without Redis. Please check your Redis configuration.")
        exCallerContext ∧
    getAgent exLimitEnv exThinkingStub 1 "k" [("prompt", "q")] exCallerContext =
      .limitFailure ("Daily run limit exceeded. Maximum " ++
        toString exLimitEnv.dailyRunCap ++
        " runs per day allowed. Please try again tomorrow.")
        exLimitEnv.dailyRunCap exLimitEnv.limitResult.currentUsage exCallerContext :=
  ⟨(claim10_preflight_context_untouched exRedisDownEnv exThinkingStub 1 "k"
      [("prompt", "q")] exCallerContext rfl).1 rfl,
   (claim10_preflight_context_untouched exLimitEnv exThinkingStub 1 "k"
      [("prompt", "q")] exCallerContext rfl).2 rfl rfl⟩

/-! ## Tool-name charset and length lemmas -/

/-- Characters kept by the `[^a-z0-9_]` filter satisfy the charset. -/
theorem validToolNameChars_filter (l : List Char) :
    validToolNameChars ⟨l.filter isLowerAlnumU⟩ = true := by
  simp [validToolNameChars, List.all_eq_true]

/-- The charset is closed under concatenation. -/
theorem validToolNameChars_append (a b : String)
    (ha : validToolNameChars a = true) (hb : validToolNameChars b = true) :
    validToolNameChars (a ++ b) = true := by
  simp only [validToolNameChars, String.data_append, List.all_append]
  simp only [validToolNameChars] at ha hb
  simp [ha, hb]

/-- The charset is closed under truncation. -/
theorem validToolNameChars_jsSubstring (n : Nat) (s : String)
    (h : validToolNameChars s = true) :
    validToolNameChars (jsSubstring n s) = true := by
  simp only [validToolNameChars, jsSubstring, List.all_eq_true] at *
  intro a ha
  exact h a (List.mem_of_mem_take ha)

/-- `substring(0, n)` yields at most `n` characters. -/
theorem length_jsSubstring_le (n : Nat) (s : String) :
    (jsSubstring n s).length ≤ n := by
  show (s.data.take n).length ≤ n
  simp [List.length_take]

/-- The five iterated methods lower to charset-clean strings. -/
theorem validToolNameChars_method (method : String) (hm : method ∈ methodsList) :
    validToolNameChars (jsToLower method) = true := by
  fin_cases hm <;> decide

/-- Every derivation branch of `generateToolName` truncates to 60
characters. -/
theorem generateToolNameDerived_length_le (path method : String)
    (operation : Operation) :
    (generateToolNameDerived path method operation).length ≤ 60 := by
  unfold generateToolNameDerived pathFallbackName
  dsimp only
  repeat' split
  all_goals exact length_jsSubstring_le 60 _

/-- A summary-derived name uses only `[a-z0-9_]`. -/
theorem generateToolNameDerived_summary_charset (path method : String)
    (operation : Operation) (hm : method ∈ methodsList)
    (hs : operation.summary.getD "" ≠ "") :
    validToolNameChars (generateToolNameDerived path method operation) = true := by
  unfold generateToolNameDerived
  dsimp only
  rw [if_pos hs]
  split
  · exact validToolNameChars_jsSubstring _ _
      (validToolNameChars_append _ _
        (validToolNameChars_append _ _ (validToolNameChars_method method hm)
          (by decide))
        (validToolNameChars_filter _))
  · exact validToolNameChars_jsSubstring _ _ (validToolNameChars_filter _)

/-- An operationId-derived name uses only `[a-z0-9_]`. -/
theorem generateToolNameDerived_opId_charset (path method : String)
    (operation : Operation) (hm : method ∈ methodsList)
    (hs : operation.summary.getD "" = "") (oid : String)
    (hoid : operation.operationId = some oid) (hne : oid ≠ "") :
    validToolNameChars (generateToolNameDerived path method operation) = true := by
  unfold generateToolNameDerived
  dsimp only
  rw [if_neg (fun hcon => hcon hs), hoid]
  dsimp only
  rw [if_neg hne]
  exact validToolNameChars_jsSubstring _ _
    (validToolNameChars_append _ _
      (validToolNameChars_append _ _ (validToolNameChars_method method hm)
        (by decide))
      (validToolNameChars_filter _))

/-- The summary sanitization of `prepareAllTools` yields only `[a-z0-9_]`. -/
theorem sanitizedSummary_valid (summary : String) :
    validToolNameChars
      ⟨(jsToLower summary).data.map (fun c => if isLowerAlnum c then c else '_')⟩ =
      true := by
  simp only [validToolNameChars, List.all_eq_true]
  intro c hc
  rcases List.mem_map.mp hc with ⟨d, _, rfl⟩
  by_cases h : isLowerAlnum d = true <;> simp [isLowerAlnumU, h]

/-- One extraction step preserves charset-valid values. -/
theorem extract_step_values (pe : String × PathItem)
    (tn : List (String × String)) (m : String)
    (htn : ∀ kv ∈ tn, validToolNameChars kv.2 = true) :
    ∀ kv ∈ extractToolNamesMethodStep pe tn m, validToolNameChars kv.2 = true := by
  intro kv hkv
  unfold extractToolNamesMethodStep at hkv
  rcases ho : pe.2.op m with _ | op <;> rw [ho] at hkv <;> dsimp only at hkv
  · exact htn kv hkv
  · rcases hsum : op.summary with _ | summary <;> rw [hsum] at hkv <;>
      dsimp only at hkv
    · exact htn kv hkv
    · rcases mem_objInsert _ _ _ kv hkv with h | h
      · subst h
        exact sanitizedSummary_valid summary
      · exact htn kv h

/-- The method fold of the extraction preserves charset-valid values. -/
theorem extract_methods_fold_values (pe : String × PathItem) (ms : List String)
    (tn : List (String × String))
    (htn : ∀ kv ∈ tn, validToolNameChars kv.2 = true) :
    ∀ kv ∈ ms.foldl (extractToolNamesMethodStep pe) tn,
      validToolNameChars kv.2 = true := by
  induction ms generalizing tn with
  | nil => exact htn
  | cons m ms ih => exact ih _ (extract_step_values pe tn m htn)

/-- Every value of the actions-side override mapping is charset-clean
(lowercase `[a-z0-9]` with `_`), though not truncated. -/
theorem extractToolNamesFromSpec_values (spec : OpenApiSpec) :
    ∀ kv ∈ extractToolNamesFromSpec spec, validToolNameChars kv.2 = true := by
  unfold extractToolNamesFromSpec
  generalize hinit : ([] : List (String × String)) = init
  have hbase : ∀ kv ∈ init, validToolNameChars kv.2 = true := by
    rw [← hinit]; intro kv h; cases h
  clear hinit
  induction spec.paths generalizing init with
  | nil => exact hbase
  | cons pe ps ih =>
    exact ih _ (extract_methods_fold_values pe methodsList init hbase)

/-! ## Claim theorems: tool-name policy -/

/-- C5 (amended): a name produced by `generateToolName`'s own derivation
branches (override miss) has length at most 60; when it comes from the
summary or operationId branch it moreover uses only `[a-z0-9_]`; and every
value of the override mapping that `prepareAllTools` itself builds is
sanitized to `[a-z0-9_]` (though not truncated).  The unamended claim —
every compiled name, override names included, is ≤ 64 characters over
`[a-z0-9_]` — fails: override names are returned verbatim, and the
path-derived fallback keeps characters of the path outside the charset; see
the counterexample. -/
theorem claim5_tool_name_policy (toolNames : List (String × String))
    (path method : String) (operation : Operation)
    (hm : method ∈ methodsList)
    (hov : jsLookupTruthy toolNames (method ++ "_" ++ path) = none) :
    (generateToolName toolNames path method operation).length ≤ 60 ∧
    (operation.summary.getD "" ≠ "" →
      validToolNameChars (generateToolName toolNames path method operation) = true) ∧
    (∀ oid, operation.summary.getD "" = "" → operation.operationId = some oid →
      oid ≠ "" →
      validToolNameChars (generateToolName toolNames path method operation) = true) ∧
    (∀ spec : OpenApiSpec, ∀ kv ∈ extractToolNamesFromSpec spec,
      validToolNameChars kv.2 = true) := by
  have hderiv : generateToolName toolNames path method operation =
      generateToolNameDerived path method operation := by
    unfold generateToolName
    dsimp only
    rw [hov]
  rw [hderiv]
  exact ⟨generateToolNameDerived_length_le path method operation,
    fun hs => generateToolNameDerived_summary_charset path method operation hm hs,
    fun oid hs hoid hne =>
      generateToolNameDerived_opId_charset path method operation hm hs oid hoid hne,
    fun spec => extractToolNamesFromSpec_values spec⟩

/-- Witness for C5's amended theorem at the widget operation. -/
theorem claim5_tool_name_policy_witness :
    (generateToolName [] "/widget" "get"
      { summary := some "Get Widget" }).length ≤ 60 ∧
    validToolNameChars (generateToolName [] "/widget" "get"
      { summary := some "Get Widget" }) = true := by
  have h := claim5_tool_name_policy [] "/widget" "get"
    { summary := some "Get Widget" } (by decide) rfl
  exact ⟨h.1, h.2.1 (by decide)⟩

/-- C5 counterexample: an override name is emitted verbatim with a space and
an uppercase letter; a path-derived fallback name keeps `.` and uppercase
from the path; a 70-character override exceeds the 64-character limit. -/
theorem claim5_tool_name_counterexample :
    (generateTools [("get_/widget", "BAD NAME!")] exWidgetSpec).map Prod.fst =
      ["BAD NAME!"] ∧
    validToolNameChars "BAD NAME!" = false ∧
    (generateTools [] exUsersSpec).map Prod.fst = ["get_Users.list"] ∧
    validToolNameChars "get_Users.list" = false ∧
    (generateTools [("get_/widget", exLongOverride)] exWidgetSpec).map Prod.fst =
      [exLongOverride] ∧
    64 < exLongOverride.length :=
  ⟨rfl, by decide, rfl, by decide, rfl, by decide⟩

end Skyfire